import Mathlib

/-!
# The per-connection bridge of tcpproxy_server_v02.cpp

A shallow embedding of `tcp_proxy::bridge`: the bridge object is a record, every
completion handler is a function from the bridge (and the completion's arguments)
to the new bridge together with the list of socket operations the handler
performed, in program order.  The asynchronous runtime is a step relation that
picks one outstanding operation, completes it and runs its handler.
-/

namespace tcp_proxy

/-- One octet of relayed data (`unsigned char`). -/
abbrev Byte := Fin 256

/-- The constant `enum { max_data_length = 8192 }`. -/
def max_data_length : Nat := 8192

/-- Number of values of `std::size_t` (64-bit target). -/
def size_t_range : Nat := 2 ^ 64

/-- Subtraction `a - b` on `std::size_t`: unsigned, wrapping modulo `2^64`. -/
def size_t_sub (a b : Nat) : Nat := (a + size_t_range - b) % size_t_range

/-- The view `boost::asio::buffer(array, max_size_in_bytes)`: the first
`max_size_in_bytes` bytes of the array (all of it when the array is shorter). -/
def asio_buffer (array : List Byte) (max_size_in_bytes : Nat) : List Byte :=
  array.take max_size_in_bytes

/-- Effect of a completed `async_read_some` on its target array: the received bytes
overwrite the front of the array, the rest of the array keeps its contents. -/
def read_into (array data : List Byte) : List Byte :=
  data ++ array.drop data.length

/-- The asynchronous operations a bridge starts; each names the handler bound to it.
A write carries the bytes of the buffer view it was started with. -/
inductive Op where
  /-- Started by `upstream_socket_.async_connect`, completes in `handle_upstream_connect`. -/
  | connect_upstream : Op
  /-- Started by `upstream_socket_.async_read_some(buffer(upstream_data_, max_data_length))`,
  completes in `handle_upstream_read`. -/
  | read_upstream : Op
  /-- Started by `downstream_socket_.async_read_some(buffer(downstream_data_, max_data_length))`,
  completes in `handle_downstream_read`. -/
  | read_downstream : Op
  /-- Started by `async_write(upstream_socket_, buffer(downstream_data_, k))`,
  completes in `handle_upstream_write`. -/
  | write_upstream (bytes : List Byte) : Op
  /-- Started by `async_write(downstream_socket_, buffer(upstream_data_, k))`,
  completes in `handle_downstream_write`. -/
  | write_downstream (bytes : List Byte) : Op
  deriving DecidableEq

/-- What a member function does to the outside world, in program order. -/
inductive Action where
  /-- An asynchronous operation is started. -/
  | issue (op : Op) : Action
  /-- The call `downstream_socket_.close()`. -/
  | close_downstream_socket : Action
  /-- The call `upstream_socket_.close()`. -/
  | close_upstream_socket : Action
  deriving DecidableEq

/-- The data members of `class bridge`; a socket is represented by its `is_open()` flag. -/
structure bridge where
  downstream_socket_ : Bool
  upstream_socket_ : Bool
  downstream_data_ : List Byte
  upstream_data_ : List Byte
  bytes_left_to_send_ : Nat
  deriving DecidableEq

/-- The member function `bridge::close` (lines 171-184), run under its mutex. -/
def close (b : bridge) : bridge × List Action :=
  let r1 : bridge × List Action :=
    if b.downstream_socket_ then
      ({ b with downstream_socket_ := false }, [Action.close_downstream_socket])
    else (b, [])
  if r1.1.upstream_socket_ then
    ({ r1.1 with upstream_socket_ := false }, r1.2 ++ [Action.close_upstream_socket])
  else r1

/-- The member function `bridge::start` (lines 58-70).  `opened` is the outcome of the
implicit `open()` that `async_connect` performs on a socket that is not yet open. -/
def start (b : bridge) (max_bytes : Nat) (opened : Bool) : bridge × List Action :=
  ({ b with bytes_left_to_send_ := max_bytes,
            upstream_socket_ := b.upstream_socket_ || opened },
   [Action.issue Op.connect_upstream])

/-- The handler `bridge::handle_upstream_connect` (lines 72-92). -/
def handle_upstream_connect (b : bridge) (error : Bool) : bridge × List Action :=
  if !error then
    (b, [Action.issue Op.read_upstream, Action.issue Op.read_downstream])
  else close b

/-- The handler `bridge::handle_downstream_write` (lines 96-109). -/
def handle_downstream_write (b : bridge) (error : Bool) : bridge × List Action :=
  if !error then
    (b, [Action.issue Op.read_upstream])
  else close b

/-- The handler `bridge::handle_downstream_read` (lines 111-134). -/
def handle_downstream_read (b : bridge) (error : Bool) (bytes_transferred : Nat) :
    bridge × List Action :=
  if !error then
    let r : bridge × Nat :=
      if b.bytes_left_to_send_ ≥ bytes_transferred then
        ({ b with bytes_left_to_send_ := size_t_sub b.bytes_left_to_send_ bytes_transferred },
         bytes_transferred)
      else
        ({ b with bytes_left_to_send_ := 0 }, b.bytes_left_to_send_)
    (r.1, [Action.issue (Op.write_upstream (asio_buffer r.1.downstream_data_ r.2))])
  else close b

/-- The handler `bridge::handle_upstream_write` (lines 136-154). -/
def handle_upstream_write (b : bridge) (error : Bool) : bridge × List Action :=
  if !error then
    if b.bytes_left_to_send_ ≠ 0 then
      (b, [Action.issue Op.read_downstream])
    else close b
  else close b

/-- The handler `bridge::handle_upstream_read` (lines 156-169). -/
def handle_upstream_read (b : bridge) (error : Bool) (bytes_transferred : Nat) :
    bridge × List Action :=
  if !error then
    (b, [Action.issue (Op.write_downstream (asio_buffer b.upstream_data_ bytes_transferred))])
  else close b

/-! ## Reading a list of actions -/

/-- The operations started by a list of actions, in order. -/
def issued_ops : List Action → List Op
  | [] => []
  | Action.issue op :: rest => op :: issued_ops rest
  | _ :: rest => issued_ops rest

/-- Whether an action starts a read or a write on one of the two sockets. -/
def Action.is_read_or_write : Action → Bool
  | Action.issue Op.read_upstream => true
  | Action.issue Op.read_downstream => true
  | Action.issue (Op.write_upstream _) => true
  | Action.issue (Op.write_downstream _) => true
  | _ => false

/-- All bytes handed to `async_write(upstream_socket_, ...)`, in order. -/
def written_upstream : List Action → List Byte
  | [] => []
  | Action.issue (Op.write_upstream bytes) :: rest => bytes ++ written_upstream rest
  | _ :: rest => written_upstream rest

/-- All bytes handed to `async_write(downstream_socket_, ...)`, in order. -/
def written_downstream : List Action → List Byte
  | [] => []
  | Action.issue (Op.write_downstream bytes) :: rest => bytes ++ written_downstream rest
  | _ :: rest => written_downstream rest

/-- The slices handed to `async_write(upstream_socket_, ...)`, one per write. -/
def upstream_writes : List Action → List (List Byte)
  | [] => []
  | Action.issue (Op.write_upstream bytes) :: rest => bytes :: upstream_writes rest
  | _ :: rest => upstream_writes rest

/-! ## The two pipelines in isolation -/

/-- The downstream→upstream pipeline with every operation succeeding: each element of
`reads` is the data one downstream `async_read_some` delivers; `handle_downstream_read`
runs on it, the write it started completes and `handle_upstream_write` runs; the next
element is consumed only if that handler started another downstream read. -/
def downstream_pipeline (b : bridge) : List (List Byte) → bridge × List Action
  | [] => (b, [])
  | data :: rest =>
    let r1 := handle_downstream_read
      { b with downstream_data_ := read_into b.downstream_data_ data } false data.length
    let r2 := handle_upstream_write r1.1 false
    let r3 := if Action.issue Op.read_downstream ∈ r2.2 then downstream_pipeline r2.1 rest
      else (r2.1, [])
    (r3.1, r1.2 ++ r2.2 ++ r3.2)

/-- The upstream→downstream pipeline with every operation succeeding: each element of
`reads` is the data one upstream `async_read_some` delivers; `handle_upstream_read`
runs on it, the write it started completes and `handle_downstream_write` runs; the next
element is consumed only if that handler started another upstream read. -/
def upstream_pipeline (b : bridge) : List (List Byte) → bridge × List Action
  | [] => (b, [])
  | data :: rest =>
    let r1 := handle_upstream_read
      { b with upstream_data_ := read_into b.upstream_data_ data } false data.length
    let r2 := handle_downstream_write r1.1 false
    let r3 := if Action.issue Op.read_upstream ∈ r2.2 then upstream_pipeline r2.1 rest
      else (r2.1, [])
    (r3.1, r1.2 ++ r2.2 ++ r3.2)

/-- A number of consecutive calls of `close`, with everything they did. -/
def close_times : Nat → bridge → bridge × List Action
  | 0, b => (b, [])
  | k + 1, b =>
    let r1 := close b
    let r2 := close_times k r1.1
    (r2.1, r1.2 ++ r2.2)

/-! ## The bridge under the asynchronous runtime -/

/-- Result of an asynchronous operation as passed to its handler: the error code
(true when set, end of file included) and, for a read, the bytes received
(`bytes_transferred` is their number). -/
structure Completion where
  error : Bool
  data : List Byte
  deriving DecidableEq

/-- A bridge together with its outstanding asynchronous operations. -/
structure System where
  b : bridge
  pending : List Op
  deriving DecidableEq

/-- The system right after a member function returned. -/
def launch (r : bridge × List Action) : System :=
  ⟨r.1, issued_ops r.2⟩

/-- Whether the runtime can deliver completion `c` for `op`: a read never stores more
than the `max_data_length` bytes of its buffer view. -/
def admissible (op : Op) (c : Completion) : Bool :=
  match op with
  | Op.read_upstream => decide (c.data.length ≤ max_data_length)
  | Op.read_downstream => decide (c.data.length ≤ max_data_length)
  | _ => true

/-- Completion of one operation: a read has stored its data in its array, and the
handler bound to the operation runs with the error code and the byte count. -/
def run_handler (b : bridge) (op : Op) (c : Completion) : bridge × List Action :=
  match op with
  | Op.connect_upstream => handle_upstream_connect b c.error
  | Op.read_upstream =>
    handle_upstream_read
      { b with upstream_data_ := read_into b.upstream_data_ c.data } c.error c.data.length
  | Op.read_downstream =>
    handle_downstream_read
      { b with downstream_data_ := read_into b.downstream_data_ c.data } c.error c.data.length
  | Op.write_upstream _ => handle_upstream_write b c.error
  | Op.write_downstream _ => handle_downstream_write b c.error

/-- The actions of the handler run when the `i`-th outstanding operation completes
with `c` (none when there is no such completion). -/
def fired (s : System) (i : Nat) (c : Completion) : List Action :=
  match s.pending[i]? with
  | none => []
  | some op => if admissible op c then (run_handler s.b op c).2 else []

/-- One step of the runtime: the `i`-th outstanding operation completes with `c`, its
handler runs, and the operations the handler started become outstanding.  Any
outstanding operation may complete next, and with either outcome: closing a socket
cancels the operations still waiting on it, but an operation that had already completed
when `close` ran keeps its result and its handler still runs. -/
def step (s : System) (i : Nat) (c : Completion) : Option System :=
  match s.pending[i]? with
  | none => none
  | some op =>
    if admissible op c then
      some ⟨(run_handler s.b op c).1,
            s.pending.eraseIdx i ++ issued_ops (run_handler s.b op c).2⟩
    else none

/-- States the runtime can reach from `s0`. -/
inductive Reachable (s0 : System) : System → Prop where
  | init : Reachable s0 s0
  | next {s s2 : System} (i : Nat) (c : Completion) :
      Reachable s0 s → step s i c = some s2 → Reachable s0 s2

/-- Operations of the downstream→upstream pipeline, the users of `downstream_data_`. -/
def Op.uses_downstream_data : Op → Bool
  | Op.read_downstream => true
  | Op.write_upstream _ => true
  | _ => false

/-- Operations of the upstream→downstream pipeline, the users of `upstream_data_`. -/
def Op.uses_upstream_data : Op → Bool
  | Op.read_upstream => true
  | Op.write_downstream _ => true
  | _ => false

/-- Whether an operation is the upstream connect. -/
def Op.is_connect : Op → Bool
  | Op.connect_upstream => true
  | _ => false

/-- The pending-operation invariant of a connected bridge: each pipeline has at most
one outstanding operation and no connect is outstanding. -/
def pipelines_sequential (s : System) : Prop :=
  s.pending.countP Op.uses_downstream_data ≤ 1 ∧
  s.pending.countP Op.uses_upstream_data ≤ 1 ∧
  s.pending.countP Op.is_connect = 0

/-- A freshly constructed bridge whose downstream socket has been accepted; the two
arrays are filled with zeros here (the constructor leaves them uninitialised). -/
def accepted_bridge : bridge :=
  { downstream_socket_ := true
    upstream_socket_ := false
    downstream_data_ := List.replicate max_data_length 0
    upstream_data_ := List.replicate max_data_length 0
    bytes_left_to_send_ := 0 }

/-- The accepted bridge after `start` with a quota of 100 bytes. -/
def bridge_quota_100 : bridge := (start accepted_bridge 100 true).1

/-- A block of `k` bytes, all equal to `v`. -/
def block (k : Nat) (v : Byte) : List Byte := List.replicate k v

/-- The quota-100 bridge right after its upstream connect succeeded: one read is
outstanding on each socket. -/
def connected_system : System := launch (handle_upstream_connect bridge_quota_100 false)

/-- A read completing with end of file: error set, no bytes. -/
def end_of_file : Completion := ⟨true, []⟩

/-- The connected system after its upstream read completed with end of file: both
sockets closed, the downstream read still outstanding. -/
def after_upstream_eof : System := ⟨(close bridge_quota_100).1, [Op.read_downstream]⟩

/-- A connect or write completing without error. -/
def connect_ok : Completion := ⟨false, []⟩

/-- A read completing without error with 3 bytes. -/
def three_bytes : Completion := ⟨false, block 3 9⟩

/-- The connected system after its downstream read delivered 3 bytes: the write of
those bytes to upstream is outstanding and the counter is 97. -/
def after_first_read : System :=
  ⟨{ bridge_quota_100 with
      downstream_data_ := read_into bridge_quota_100.downstream_data_ (block 3 9),
      bytes_left_to_send_ := 97 },
   [Op.read_upstream, Op.write_upstream (block 3 9)]⟩

/-! ## Basic facts -/

theorem size_t_sub_of_le {r n : Nat} (h : n ≤ r) (hr : r < size_t_range) :
    size_t_sub r n = r - n := by
  unfold size_t_sub
  have e : r + size_t_range - n = (r - n) + size_t_range := by omega
  rw [e, Nat.add_mod_right, Nat.mod_eq_of_lt (by omega)]

theorem close_bridge (b : bridge) :
    (close b).1 = { b with downstream_socket_ := false, upstream_socket_ := false } := by
  rcases b with ⟨d, u, dd, ud, r⟩
  cases d <;> cases u <;> rfl

theorem close_actions (b : bridge) :
    (close b).2 =
      (if b.downstream_socket_ then [Action.close_downstream_socket] else []) ++
      (if b.upstream_socket_ then [Action.close_upstream_socket] else []) := by
  rcases b with ⟨d, u, dd, ud, r⟩
  cases d <;> cases u <;> rfl

theorem close_of_closed (b : bridge) (hd : b.downstream_socket_ = false)
    (hu : b.upstream_socket_ = false) : close b = (b, []) := by
  rcases b with ⟨d, u, dd, ud, r⟩
  simp only at hd hu
  subst hd hu
  rfl

theorem close_close (b : bridge) : close (close b).1 = ((close b).1, []) :=
  close_of_closed _ (by rw [close_bridge]) (by rw [close_bridge])

theorem issued_ops_close (b : bridge) : issued_ops (close b).2 = [] := by
  rw [close_actions]
  cases b.downstream_socket_ <;> cases b.upstream_socket_ <;> rfl

theorem close_no_read_write (b : bridge) :
    ∀ a ∈ (close b).2, a.is_read_or_write = false := by
  rw [close_actions]
  cases b.downstream_socket_ <;> cases b.upstream_socket_ <;> simp [Action.is_read_or_write]

theorem written_upstream_close (b : bridge) : written_upstream (close b).2 = [] := by
  rw [close_actions]
  cases b.downstream_socket_ <;> cases b.upstream_socket_ <;> rfl

theorem written_downstream_close (b : bridge) : written_downstream (close b).2 = [] := by
  rw [close_actions]
  cases b.downstream_socket_ <;> cases b.upstream_socket_ <;> rfl

theorem read_downstream_not_in_close (b : bridge) :
    Action.issue Op.read_downstream ∉ (close b).2 := by
  rw [close_actions]
  cases b.downstream_socket_ <;> cases b.upstream_socket_ <;> simp

/-- What `handle_downstream_read` does on a successful read, for a counter in range. -/
theorem handle_downstream_read_ok (b : bridge) (n : Nat)
    (hr : b.bytes_left_to_send_ < size_t_range) :
    handle_downstream_read b false n =
      ({ b with bytes_left_to_send_ := b.bytes_left_to_send_ - min n b.bytes_left_to_send_ },
       [Action.issue (Op.write_upstream
          (b.downstream_data_.take (min n b.bytes_left_to_send_)))]) := by
  unfold handle_downstream_read asio_buffer
  by_cases h : b.bytes_left_to_send_ ≥ n
  · have e : min n b.bytes_left_to_send_ = n := Nat.min_eq_left h
    simp [h, e, size_t_sub_of_le h hr]
  · have h2 : b.bytes_left_to_send_ ≤ n := by omega
    have e : min n b.bytes_left_to_send_ = b.bytes_left_to_send_ := Nat.min_eq_right h2
    simp [h, e]


theorem take_read_into (array data : List Byte) (k : Nat) (hk : k ≤ data.length) :
    (read_into array data).take k = data.take k := by
  unfold read_into
  exact List.take_append_of_le_length hk

theorem handle_upstream_write_ok (b : bridge) :
    handle_upstream_write b false =
      if b.bytes_left_to_send_ ≠ 0 then (b, [Action.issue Op.read_downstream]) else close b := by
  simp [handle_upstream_write]

/-- The pipeline step when the read stays strictly below the remaining quota. -/
theorem downstream_pipeline_below (b : bridge) (data : List Byte) (rest : List (List Byte))
    (hr : b.bytes_left_to_send_ < size_t_range) (h : data.length < b.bytes_left_to_send_) :
    downstream_pipeline b (data :: rest) =
      ((downstream_pipeline
          { b with downstream_data_ := read_into b.downstream_data_ data,
                   bytes_left_to_send_ := b.bytes_left_to_send_ - data.length } rest).1,
        Action.issue (Op.write_upstream data) :: Action.issue Op.read_downstream ::
        (downstream_pipeline
          { b with downstream_data_ := read_into b.downstream_data_ data,
                   bytes_left_to_send_ := b.bytes_left_to_send_ - data.length } rest).2) := by
  have e : min data.length b.bytes_left_to_send_ = data.length := Nat.min_eq_left (by omega)
  have hne : b.bytes_left_to_send_ - data.length ≠ 0 := by omega
  have h1 := handle_downstream_read_ok
    { b with downstream_data_ := read_into b.downstream_data_ data } data.length hr
  simp only [e, take_read_into _ _ _ (le_refl _), List.take_length] at h1
  simp only [downstream_pipeline, h1, handle_upstream_write_ok]
  simp [hne]

/-- The pipeline step when the read reaches or passes the remaining quota. -/
theorem downstream_pipeline_reach (b : bridge) (data : List Byte) (rest : List (List Byte))
    (hr : b.bytes_left_to_send_ < size_t_range) (h : b.bytes_left_to_send_ ≤ data.length) :
    downstream_pipeline b (data :: rest) =
      ((close { b with downstream_data_ := read_into b.downstream_data_ data,
                       bytes_left_to_send_ := 0 }).1,
        Action.issue (Op.write_upstream (data.take b.bytes_left_to_send_)) ::
        (close { b with downstream_data_ := read_into b.downstream_data_ data,
                        bytes_left_to_send_ := 0 }).2) := by
  have e : min data.length b.bytes_left_to_send_ = b.bytes_left_to_send_ := Nat.min_eq_right h
  have h1 := handle_downstream_read_ok
    { b with downstream_data_ := read_into b.downstream_data_ data } data.length hr
  simp only [e, take_read_into _ _ _ h, Nat.sub_self] at h1
  simp only [downstream_pipeline, h1, handle_upstream_write_ok]
  simp [read_downstream_not_in_close]

theorem written_upstream_pipeline (reads : List (List Byte)) :
    ∀ b : bridge, b.bytes_left_to_send_ < size_t_range →
      written_upstream (downstream_pipeline b reads).2 =
        reads.flatten.take b.bytes_left_to_send_ := by
  induction reads with
  | nil => intro b _; simp [downstream_pipeline, written_upstream]
  | cons data rest ih =>
    intro b hr
    by_cases h : data.length < b.bytes_left_to_send_
    · rw [downstream_pipeline_below b data rest hr h]
      simp only [written_upstream, List.flatten_cons]
      rw [ih _ (show b.bytes_left_to_send_ - data.length < size_t_range by omega)]
      rw [List.take_append_eq_append_take,
        List.take_of_length_le (show data.length ≤ b.bytes_left_to_send_ by omega)]
    · have h2 : b.bytes_left_to_send_ ≤ data.length := by omega
      rw [downstream_pipeline_reach b data rest hr h2]
      simp only [written_upstream, List.flatten_cons, written_upstream_close,
        List.append_nil]
      rw [List.take_append_of_le_length h2]

theorem downstream_pipeline_ends_closed (reads : List (List Byte)) :
    ∀ b : bridge, b.bytes_left_to_send_ < size_t_range →
      b.bytes_left_to_send_ < (reads.map List.length).sum →
      ∃ (front : List Action) (w : List Byte) (bb : bridge),
        bb.bytes_left_to_send_ = 0 ∧
        (downstream_pipeline b reads).2 =
          front ++ Action.issue (Op.write_upstream w) :: (close bb).2 ∧
        (downstream_pipeline b reads).1 = (close bb).1 := by
  induction reads with
  | nil => intro b _ h; simp at h
  | cons data rest ih =>
    intro b hr hs
    simp only [List.map_cons, List.sum_cons] at hs
    by_cases h : data.length < b.bytes_left_to_send_
    · rw [downstream_pipeline_below b data rest hr h]
      obtain ⟨front, w, bb, h0, h2, h1⟩ :=
        ih { b with downstream_data_ := read_into b.downstream_data_ data,
                    bytes_left_to_send_ := b.bytes_left_to_send_ - data.length }
          (show b.bytes_left_to_send_ - data.length < size_t_range by omega)
          (show b.bytes_left_to_send_ - data.length < (rest.map List.length).sum by omega)
      refine ⟨Action.issue (Op.write_upstream data) :: Action.issue Op.read_downstream :: front,
        w, bb, h0, ?_, h1⟩
      simp only [h2, List.cons_append]
    · have h2 : b.bytes_left_to_send_ ≤ data.length := by omega
      rw [downstream_pipeline_reach b data rest hr h2]
      exact ⟨[], _, _, rfl, rfl, rfl⟩

theorem written_downstream_pipeline (reads : List (List Byte)) :
    ∀ b : bridge, written_downstream (upstream_pipeline b reads).2 = reads.flatten ∧
      (upstream_pipeline b reads).1.bytes_left_to_send_ = b.bytes_left_to_send_ := by
  induction reads with
  | nil => intro b; simp [upstream_pipeline, written_downstream]
  | cons data rest ih =>
    intro b
    have h := ih { b with upstream_data_ := read_into b.upstream_data_ data }
    simp only [upstream_pipeline, handle_upstream_read, handle_downstream_write, asio_buffer,
      take_read_into _ _ _ (le_refl _), List.take_length]
    simp [written_downstream, h.1, h.2]

theorem close_times_succ (k : Nat) : ∀ b : bridge, close_times (k + 1) b = close b := by
  induction k with
  | zero => intro b; simp [close_times]
  | succ k ih =>
    intro b
    rw [close_times, ih, close_close]
    simp

/-! ## The runtime: invariants of a step -/


theorem countP_eraseIdx_add (p : Op → Bool) :
    ∀ (l : List Op) (i : Nat) (op : Op), l[i]? = some op →
      (l.eraseIdx i).countP p + (if p op then 1 else 0) = l.countP p := by
  intro l
  induction l with
  | nil => intro i op h; simp at h
  | cons a l ih =>
    intro i op h
    cases i with
    | zero =>
      simp only [List.getElem?_cons_zero, Option.some.injEq] at h
      subst h
      simp only [List.eraseIdx_cons_zero, List.countP_cons]
    | succ i =>
      simp only [List.getElem?_cons_succ] at h
      simp only [List.eraseIdx_cons_succ, List.countP_cons]
      have := ih i op h
      omega

theorem eq_of_mem_countP_le_one (p : Op → Bool) (l : List Op) (x y : Op)
    (h : l.countP p ≤ 1) (hx : x ∈ l) (hy : y ∈ l) (px : p x = true) (py : p y = true) :
    x = y := by
  have hx2 : x ∈ l.filter p := List.mem_filter.mpr ⟨hx, px⟩
  have hy2 : y ∈ l.filter p := List.mem_filter.mpr ⟨hy, py⟩
  rw [List.countP_eq_length_filter] at h
  match hf : l.filter p, h with
  | [], _ => rw [hf] at hx2; simp at hx2
  | [z], _ =>
    rw [hf] at hx2 hy2
    simp only [List.mem_singleton] at hx2 hy2
    rw [hx2, hy2]
  | _ :: _ :: _, h2 => simp at h2

/-- No handler opens a socket. -/
theorem run_handler_sockets (b : bridge) (op : Op) (c : Completion) :
    (b.downstream_socket_ = false → (run_handler b op c).1.downstream_socket_ = false) ∧
    (b.upstream_socket_ = false → (run_handler b op c).1.upstream_socket_ = false) := by
  cases op <;> cases he : c.error <;>
    simp only [run_handler, he, handle_upstream_connect, handle_upstream_read,
      handle_downstream_read, handle_upstream_write, handle_downstream_write, Bool.not_false,
      Bool.not_true, Bool.false_eq_true, if_true, if_false, close_bridge]
  all_goals (try split_ifs)
  all_goals (simp [close_bridge])

/-- No handler raises the counter, and only a successful downstream read changes it. -/
theorem run_handler_counter (b : bridge) (op : Op) (c : Completion)
    (hr : b.bytes_left_to_send_ < size_t_range) :
    (run_handler b op c).1.bytes_left_to_send_ ≤ b.bytes_left_to_send_ ∧
    ((run_handler b op c).1.bytes_left_to_send_ ≠ b.bytes_left_to_send_ →
      op = Op.read_downstream ∧ c.error = false) := by
  cases op <;> cases he : c.error <;>
    simp only [run_handler, he, handle_upstream_connect, handle_upstream_read,
      handle_downstream_read, handle_upstream_write, handle_downstream_write, Bool.not_false,
      Bool.not_true, Bool.false_eq_true, if_true, if_false, close_bridge]
  all_goals (try split_ifs)
  all_goals (try (simp [close_bridge]; done))
  rename_i hle
  simp only [and_self, implies_true, and_true]
  rw [size_t_sub_of_le hle hr]
  omega

/-- A handler invoked with an error is `close` on a bridge with the same sockets. -/
theorem run_handler_error (b : bridge) (op : Op) (c : Completion) (he : c.error = true) :
    ∃ b2 : bridge, run_handler b op c = close b2 ∧
      b2.downstream_socket_ = b.downstream_socket_ ∧
      b2.upstream_socket_ = b.upstream_socket_ := by
  cases op <;>
    simp only [run_handler, he, handle_upstream_connect, handle_upstream_read,
      handle_downstream_read, handle_upstream_write, handle_downstream_write,
      Bool.not_true, Bool.false_eq_true, if_false]
  all_goals exact ⟨_, rfl, rfl, rfl⟩

/-- The operations a handler starts stay within the pipeline of the completed operation,
at most one of them, and none is a connect. -/
theorem run_handler_issued (b : bridge) (op : Op) (c : Completion)
    (hop : op.is_connect = false) :
    (issued_ops (run_handler b op c).2).countP Op.uses_downstream_data ≤
      (if op.uses_downstream_data then 1 else 0) ∧
    (issued_ops (run_handler b op c).2).countP Op.uses_upstream_data ≤
      (if op.uses_upstream_data then 1 else 0) ∧
    (issued_ops (run_handler b op c).2).countP Op.is_connect = 0 := by
  cases op <;> cases he : c.error <;>
    simp only [run_handler, he, handle_upstream_connect, handle_upstream_read,
      handle_downstream_read, handle_upstream_write, handle_downstream_write, Bool.not_false,
      Bool.not_true, Bool.false_eq_true, if_true, if_false, issued_ops_close,
      Op.uses_downstream_data, Op.uses_upstream_data, Op.is_connect] at hop ⊢
  all_goals (try (exact absurd hop (by decide)))
  all_goals (try split_ifs)
  all_goals (simp [issued_ops_close, issued_ops, Op.uses_downstream_data,
    Op.uses_upstream_data, Op.is_connect])

theorem step_inv (s s2 : System) (i : Nat) (c : Completion) (h : step s i c = some s2) :
    ∃ op : Op, s.pending[i]? = some op ∧ admissible op c = true ∧
      fired s i c = (run_handler s.b op c).2 ∧
      s2 = ⟨(run_handler s.b op c).1,
            s.pending.eraseIdx i ++ issued_ops (run_handler s.b op c).2⟩ := by
  unfold step at h
  unfold fired
  cases hp : s.pending[i]? with
  | none => simp [hp] at h
  | some op =>
    simp only [hp] at h ⊢
    cases ha : admissible op c with
    | false => simp [ha] at h
    | true =>
      rw [ha] at h
      simp only [if_true, Option.some.injEq] at h
      refine ⟨op, rfl, ha, ?_, h.symm⟩
      simp

theorem pipelines_sequential_step (s s2 : System) (i : Nat) (c : Completion)
    (hs : pipelines_sequential s) (h : step s i c = some s2) : pipelines_sequential s2 := by
  obtain ⟨op, hp, _, _, rfl⟩ := step_inv s s2 i c h
  obtain ⟨h1, h2, h3⟩ := hs
  have e1 := countP_eraseIdx_add Op.uses_downstream_data s.pending i op hp
  have e2 := countP_eraseIdx_add Op.uses_upstream_data s.pending i op hp
  have e3 := countP_eraseIdx_add Op.is_connect s.pending i op hp
  have hop : op.is_connect = false := by
    cases hh : op.is_connect with
    | false => rfl
    | true => simp [hh] at e3; omega
  obtain ⟨i1, i2, i3⟩ := run_handler_issued s.b op c hop
  simp only [hop, Bool.false_eq_true, if_false] at e3
  refine ⟨?_, ?_, ?_⟩
  · simp only [List.countP_append]
    cases hD : op.uses_downstream_data <;>
      simp only [hD, Bool.false_eq_true, if_false, if_true] at e1 i1 <;> omega
  · simp only [List.countP_append]
    cases hU : op.uses_upstream_data <;>
      simp only [hU, Bool.false_eq_true, if_false, if_true] at e2 i2 <;> omega
  · simp only [List.countP_append]
    omega

theorem pipelines_sequential_reachable (s0 s : System) (h0 : pipelines_sequential s0)
    (h : Reachable s0 s) : pipelines_sequential s := by
  induction h with
  | init => exact h0
  | next i c _ hstep ih => exact pipelines_sequential_step _ _ i c ih hstep

theorem closed_reachable (s0 s : System) (hd : s0.b.downstream_socket_ = false)
    (hu : s0.b.upstream_socket_ = false) (h : Reachable s0 s) :
    s.b.downstream_socket_ = false ∧ s.b.upstream_socket_ = false := by
  induction h with
  | init => exact ⟨hd, hu⟩
  | @next sp sn i c _ hstep ih =>
    obtain ⟨op, _, _, _, rfl⟩ := step_inv _ _ i c hstep
    have := run_handler_sockets sp.b op c
    exact ⟨this.1 ih.1, this.2 ih.2⟩

theorem counter_reachable (s0 s : System) (quota : Nat) (hq : quota < size_t_range)
    (h0 : s0.b.bytes_left_to_send_ ≤ quota) (h : Reachable s0 s) :
    s.b.bytes_left_to_send_ ≤ quota := by
  induction h with
  | init => exact h0
  | @next sp sn i c _ hstep ih =>
    obtain ⟨op, _, _, _, rfl⟩ := step_inv _ _ i c hstep
    have := (run_handler_counter sp.b op c (by omega)).1
    simp only
    omega

theorem fired_error_closed (s : System) (j : Nat) (c : Completion) (he : c.error = true)
    (hd : s.b.downstream_socket_ = false) (hu : s.b.upstream_socket_ = false) :
    fired s j c = [] := by
  unfold fired
  cases s.pending[j]? with
  | none => rfl
  | some op =>
    obtain ⟨b2, e, e1, e2⟩ := run_handler_error s.b op c he
    simp only [e, close_of_closed b2 (e1.trans hd) (e2.trans hu), ite_self]

theorem handlers_keep_counter (x : bridge) (e : Bool) (n : Nat) :
    (handle_upstream_connect x e).1.bytes_left_to_send_ = x.bytes_left_to_send_ ∧
    (handle_upstream_read x e n).1.bytes_left_to_send_ = x.bytes_left_to_send_ ∧
    (handle_downstream_write x e).1.bytes_left_to_send_ = x.bytes_left_to_send_ ∧
    (handle_upstream_write x e).1.bytes_left_to_send_ = x.bytes_left_to_send_ ∧
    (handle_downstream_read x true n).1.bytes_left_to_send_ = x.bytes_left_to_send_ ∧
    (close x).1.bytes_left_to_send_ = x.bytes_left_to_send_ := by
  cases e <;>
    simp only [handle_upstream_connect, handle_upstream_read,
      handle_downstream_read, handle_upstream_write, handle_downstream_write, Bool.not_false,
      Bool.not_true, Bool.false_eq_true, if_true, if_false, close_bridge, and_self, true_and]
  split_ifs <;> simp [close_bridge]


theorem reachable_trans {s0 s1 s2 : System} (h1 : Reachable s0 s1) (h2 : Reachable s1 s2) :
    Reachable s0 s2 := by
  induction h2 with
  | init => exact h1
  | next i c _ hstep ih => exact Reachable.next i c ih hstep

theorem step_eq (s : System) (i : Nat) (c : Completion) (op : Op)
    (hp : s.pending[i]? = some op) (ha : admissible op c = true) :
    step s i c = some ⟨(run_handler s.b op c).1,
      s.pending.eraseIdx i ++ issued_ops (run_handler s.b op c).2⟩ := by
  unfold step
  rw [hp]
  simp only [ha, if_true]

theorem step_single (b : bridge) (op : Op) (c : Completion) (ha : admissible op c = true) :
    step ⟨b, [op]⟩ 0 c =
      some ⟨(run_handler b op c).1, issued_ops (run_handler b op c).2⟩ := by
  rw [step_eq ⟨b, [op]⟩ 0 c op rfl ha]
  rfl

/-- The isolated downstream→upstream pipeline is a run of the runtime: from a system
whose only outstanding operation is a downstream read, the steps completing each read
with its data and each write without error lead to the bridge the pipeline returns. -/
theorem downstream_pipeline_is_a_run (reads : List (List Byte)) :
    ∀ b : bridge, b.bytes_left_to_send_ < size_t_range →
      (∀ d ∈ reads, d.length ≤ max_data_length) →
      ∃ pend : List Op,
        Reachable ⟨b, [Op.read_downstream]⟩ ⟨(downstream_pipeline b reads).1, pend⟩ := by
  induction reads with
  | nil => intro b _ _; exact ⟨_, Reachable.init⟩
  | cons data rest ih =>
    intro b hr hlen
    have hd : data.length ≤ max_data_length := hlen data (List.mem_cons_self _ _)
    have hrest : ∀ d ∈ rest, d.length ≤ max_data_length :=
      fun d hm => hlen d (List.mem_cons_of_mem _ hm)
    have hadm : admissible Op.read_downstream ⟨false, data⟩ = true := by
      simp [admissible, hd]
    by_cases h : data.length < b.bytes_left_to_send_
    · have e : min data.length b.bytes_left_to_send_ = data.length := Nat.min_eq_left (by omega)
      have h1 := handle_downstream_read_ok
        { b with downstream_data_ := read_into b.downstream_data_ data } data.length hr
      simp only [e, take_read_into _ _ _ (le_refl _), List.take_length] at h1
      have hne : b.bytes_left_to_send_ - data.length ≠ 0 := by omega
      obtain ⟨pend, hreach⟩ :=
        ih { b with downstream_data_ := read_into b.downstream_data_ data,
                    bytes_left_to_send_ := b.bytes_left_to_send_ - data.length }
          (show b.bytes_left_to_send_ - data.length < size_t_range by omega) hrest
      rw [downstream_pipeline_below b data rest hr h]
      have r1 : Reachable ⟨b, [Op.read_downstream]⟩
          ⟨{ b with downstream_data_ := read_into b.downstream_data_ data,
                    bytes_left_to_send_ := b.bytes_left_to_send_ - data.length },
           [Op.write_upstream data]⟩ :=
        Reachable.next 0 ⟨false, data⟩ Reachable.init
          (by
            rw [step_single _ _ _ hadm]
            show some (System.mk (handle_downstream_read _ false data.length).1
              (issued_ops (handle_downstream_read _ false data.length).2)) = _
            rw [h1]
            rfl)
      have r2 : Reachable ⟨b, [Op.read_downstream]⟩
          ⟨{ b with downstream_data_ := read_into b.downstream_data_ data,
                    bytes_left_to_send_ := b.bytes_left_to_send_ - data.length },
           [Op.read_downstream]⟩ :=
        Reachable.next 0 ⟨false, []⟩ r1
          (by
            rw [step_single _ (Op.write_upstream data) ⟨false, []⟩ rfl]
            show some (System.mk (handle_upstream_write _ false).1
              (issued_ops (handle_upstream_write _ false).2)) = _
            rw [handle_upstream_write_ok, if_pos hne]
            rfl)
      exact ⟨pend, reachable_trans r2 hreach⟩
    · have h2 : b.bytes_left_to_send_ ≤ data.length := by omega
      have e : min data.length b.bytes_left_to_send_ = b.bytes_left_to_send_ :=
        Nat.min_eq_right h2
      have h1 := handle_downstream_read_ok
        { b with downstream_data_ := read_into b.downstream_data_ data } data.length hr
      simp only [e, take_read_into _ _ _ h2, Nat.sub_self] at h1
      rw [downstream_pipeline_reach b data rest hr h2]
      have r1 : Reachable ⟨b, [Op.read_downstream]⟩
          ⟨{ b with downstream_data_ := read_into b.downstream_data_ data,
                    bytes_left_to_send_ := 0 },
           [Op.write_upstream (data.take b.bytes_left_to_send_)]⟩ :=
        Reachable.next 0 ⟨false, data⟩ Reachable.init
          (by
            rw [step_single _ _ _ hadm]
            show some (System.mk (handle_downstream_read _ false data.length).1
              (issued_ops (handle_downstream_read _ false data.length).2)) = _
            rw [h1]
            rfl)
      exact ⟨[], Reachable.next 0 ⟨false, []⟩ r1
        (by
          rw [step_single _ (Op.write_upstream (data.take b.bytes_left_to_send_))
            ⟨false, []⟩ rfl]
          show some (System.mk (handle_upstream_write _ false).1
            (issued_ops (handle_upstream_write _ false).2)) = _
          rw [handle_upstream_write_ok, if_neg (by simp), issued_ops_close])⟩

/-- The isolated upstream→downstream pipeline is a run of the runtime as well. -/
theorem upstream_pipeline_is_a_run (reads : List (List Byte)) :
    ∀ b : bridge, (∀ d ∈ reads, d.length ≤ max_data_length) →
      ∃ pend : List Op,
        Reachable ⟨b, [Op.read_upstream]⟩ ⟨(upstream_pipeline b reads).1, pend⟩ := by
  induction reads with
  | nil => intro b _; exact ⟨_, Reachable.init⟩
  | cons data rest ih =>
    intro b hlen
    have hd : data.length ≤ max_data_length := hlen data (List.mem_cons_self _ _)
    have hrest : ∀ d ∈ rest, d.length ≤ max_data_length :=
      fun d hm => hlen d (List.mem_cons_of_mem _ hm)
    have hadm : admissible Op.read_upstream ⟨false, data⟩ = true := by
      simp [admissible, hd]
    obtain ⟨pend, hreach⟩ :=
      ih { b with upstream_data_ := read_into b.upstream_data_ data } hrest
    have r1 : Reachable ⟨b, [Op.read_upstream]⟩
        ⟨{ b with upstream_data_ := read_into b.upstream_data_ data },
         [Op.write_downstream
            (asio_buffer (read_into b.upstream_data_ data) data.length)]⟩ :=
      Reachable.next 0 ⟨false, data⟩ Reachable.init
        (by rw [step_single _ _ _ hadm]; rfl)
    have r2 : Reachable ⟨b, [Op.read_upstream]⟩
        ⟨{ b with upstream_data_ := read_into b.upstream_data_ data },
         [Op.read_upstream]⟩ :=
      Reachable.next 0 ⟨false, []⟩ r1
        (by
          rw [step_single _
            (Op.write_downstream (asio_buffer (read_into b.upstream_data_ data) data.length))
            ⟨false, []⟩ rfl]
          rfl)
    refine ⟨pend, ?_⟩
    have e : (upstream_pipeline b (data :: rest)).1 =
        (upstream_pipeline
          { b with upstream_data_ := read_into b.upstream_data_ data } rest).1 := by
      simp [upstream_pipeline, handle_upstream_read, handle_downstream_write]
    rw [e]
    exact reachable_trans r2 hreach

/-! ## The claims -/

/-- C1: on a successful downstream read of `n` bytes with the counter at `r`,
`handle_downstream_read` performs exactly one action, a write to upstream of the first
`min n r` bytes of `downstream_data_`, and leaves the counter at `r - min n r`; the new
counter is the true difference `r - n` when `r ≥ n` and `0` otherwise (the unsigned
subtraction does not wrap), and the written slice is at most `n` bytes long. -/
theorem handle_downstream_read_forwards_min (b : bridge) (n : Nat)
    (hr : b.bytes_left_to_send_ < size_t_range) :
    handle_downstream_read b false n =
      ({ b with bytes_left_to_send_ := b.bytes_left_to_send_ - min n b.bytes_left_to_send_ },
       [Action.issue (Op.write_upstream
          (b.downstream_data_.take (min n b.bytes_left_to_send_)))])
    ∧ (handle_downstream_read b false n).1.bytes_left_to_send_ =
        (if b.bytes_left_to_send_ ≥ n then b.bytes_left_to_send_ - n else 0)
    ∧ (handle_downstream_read b false n).1.bytes_left_to_send_ + min n b.bytes_left_to_send_ =
        b.bytes_left_to_send_
    ∧ min n b.bytes_left_to_send_ ≤ n
    ∧ (b.downstream_data_.take (min n b.bytes_left_to_send_)).length ≤ n := by
  rw [handle_downstream_read_ok b n hr]
  refine ⟨rfl, ?_, ?_, Nat.min_le_left _ _, ?_⟩
  · show b.bytes_left_to_send_ - min n b.bytes_left_to_send_ = _
    split <;> omega
  · show b.bytes_left_to_send_ - min n b.bytes_left_to_send_ + _ = _
    omega
  · rw [List.length_take]
    omega

/-- Witness of C1: the quota-100 bridge receiving a read of 120 bytes. -/
theorem handle_downstream_read_forwards_min_witness :
    bridge_quota_100.bytes_left_to_send_ < size_t_range ∧
    (handle_downstream_read bridge_quota_100 false 120).1.bytes_left_to_send_ = 0 ∧
    (handle_downstream_read bridge_quota_100 false 120).2 =
      [Action.issue (Op.write_upstream (bridge_quota_100.downstream_data_.take 100))] := by
  have h := handle_downstream_read_forwards_min bridge_quota_100 120 (by decide)
  exact ⟨by decide, h.2.1, congrArg Prod.snd h.1⟩

/-- C2: when the cumulative length of the successful downstream reads does not exceed
the quota set by `start`, the bytes handed to the upstream writes by the
downstream→upstream pipeline are exactly the bytes read, in the same order. -/
theorem downstream_within_quota_forwarded (b : bridge) (quota : Nat) (opened : Bool)
    (reads : List (List Byte)) (hq : quota < size_t_range)
    (hs : (reads.map List.length).sum ≤ quota) :
    written_upstream (downstream_pipeline (start b quota opened).1 reads).2 = reads.flatten := by
  rw [written_upstream_pipeline reads _ hq]
  apply List.take_of_length_le
  rw [List.length_flatten]
  exact hs

/-- Witness of C2: quota 100, reads of 60 and 40 bytes. -/
theorem downstream_within_quota_forwarded_witness :
    (100 : Nat) < size_t_range ∧
    ([block 60 1, block 40 2].map List.length).sum ≤ 100 ∧
    written_upstream
      (downstream_pipeline (start accepted_bridge 100 true).1 [block 60 1, block 40 2]).2 =
      [block 60 1, block 40 2].flatten :=
  ⟨by decide, by decide,
    downstream_within_quota_forwarded accepted_bridge 100 true [block 60 1, block 40 2]
      (by decide) (by decide)⟩

/-- C3: when the cumulative length of the successful downstream reads exceeds the quota
set by `start`, the downstream→upstream pipeline hands to upstream exactly the first
`quota` bytes of the concatenated read data (`quota` bytes in total), and its trace ends
with the write that brought the counter to 0 followed by the actions of the
`handle_upstream_write` run on that write's completion, which is `close`: no operation is
started after that write, both sockets end closed and the counter ends at 0. -/
theorem downstream_beyond_quota_truncated (b : bridge) (quota : Nat) (opened : Bool)
    (reads : List (List Byte)) (hq : quota < size_t_range)
    (hs : quota < (reads.map List.length).sum) :
    written_upstream (downstream_pipeline (start b quota opened).1 reads).2 =
      reads.flatten.take quota ∧
    (written_upstream (downstream_pipeline (start b quota opened).1 reads).2).length = quota ∧
    (downstream_pipeline (start b quota opened).1 reads).1.downstream_socket_ = false ∧
    (downstream_pipeline (start b quota opened).1 reads).1.upstream_socket_ = false ∧
    (downstream_pipeline (start b quota opened).1 reads).1.bytes_left_to_send_ = 0 ∧
    ∃ (front : List Action) (w : List Byte) (bb : bridge),
      bb.bytes_left_to_send_ = 0 ∧
      (downstream_pipeline (start b quota opened).1 reads).2 =
        front ++ Action.issue (Op.write_upstream w) :: (handle_upstream_write bb false).2 ∧
      handle_upstream_write bb false = close bb ∧
      issued_ops (handle_upstream_write bb false).2 = [] ∧
      (downstream_pipeline (start b quota opened).1 reads).1 = (close bb).1 := by
  have hw := written_upstream_pipeline reads (start b quota opened).1 hq
  obtain ⟨front, w, bb, h0, h2, h1⟩ :=
    downstream_pipeline_ends_closed reads (start b quota opened).1 hq hs
  have hc : handle_upstream_write bb false = close bb := by
    simp [handle_upstream_write, h0]
  refine ⟨hw, ?_, ?_, ?_, ?_, front, w, bb, h0, ?_, hc, ?_, h1⟩
  · rw [hw, List.length_take, List.length_flatten]
    exact Nat.min_eq_left (Nat.le_of_lt hs)
  · rw [h1, close_bridge]
  · rw [h1, close_bridge]
  · rw [h1, close_bridge]
    exact h0
  · rw [hc]
    exact h2
  · rw [hc]
    exact issued_ops_close bb

/-- Witness of C3: quota 100 with reads of 60 and 60 bytes gives writes of 60 and 40
bytes and a close right after the second write. -/
theorem downstream_beyond_quota_truncated_witness :
    (100 : Nat) < size_t_range ∧
    100 < ([block 60 1, block 60 2].map List.length).sum ∧
    written_upstream
      (downstream_pipeline (start accepted_bridge 100 true).1 [block 60 1, block 60 2]).2 =
      [block 60 1, block 60 2].flatten.take 100 ∧
    upstream_writes
      (downstream_pipeline (start accepted_bridge 100 true).1 [block 60 1, block 60 2]).2 =
      [block 60 1, block 40 2] ∧
    (downstream_pipeline (start accepted_bridge 100 true).1 [block 60 1, block 60 2]).2 =
      [Action.issue (Op.write_upstream (block 60 1)), Action.issue Op.read_downstream,
       Action.issue (Op.write_upstream (block 40 2)),
       Action.close_downstream_socket, Action.close_upstream_socket] :=
  ⟨by decide, by decide,
    (downstream_beyond_quota_truncated accepted_bridge 100 true [block 60 1, block 60 2]
      (by decide) (by decide)).1,
    by decide, by decide⟩

/-- C4: with the counter at 0 (a bridge started with quota 0), a successful downstream
read of `n ≥ 1` bytes makes `handle_downstream_read` start a write of 0 bytes to upstream
and leave the counter at 0; the `handle_upstream_write` run on that write's success is
`close` and starts no operation; the pipeline never hands a byte to upstream. -/
theorem quota_zero_forwards_nothing (b : bridge) (n : Nat) (reads : List (List Byte))
    (hq : b.bytes_left_to_send_ = 0) (hn : 1 ≤ n) :
    handle_downstream_read b false n = (b, [Action.issue (Op.write_upstream [])]) ∧
    (handle_downstream_read b false n).1.bytes_left_to_send_ = 0 ∧
    handle_upstream_write (handle_downstream_read b false n).1 false = close b ∧
    issued_ops (handle_upstream_write (handle_downstream_read b false n).1 false).2 = [] ∧
    written_upstream (downstream_pipeline b reads).2 = [] := by
  have hr : b.bytes_left_to_send_ < size_t_range := by rw [hq]; decide
  have h1 : handle_downstream_read b false n = (b, [Action.issue (Op.write_upstream [])]) := by
    have hlt : ¬ (b.bytes_left_to_send_ ≥ n) := by omega
    rcases b with ⟨d, u, dd, ud, r⟩
    simp only at hq hlt
    subst hq
    simp [handle_downstream_read, asio_buffer, hlt]
  have h2 : handle_upstream_write b false = close b := by
    simp [handle_upstream_write, hq]
  refine ⟨h1, ?_, ?_, ?_, ?_⟩
  · rw [h1]; exact hq
  · rw [h1]; exact h2
  · rw [h1, h2]; exact issued_ops_close b
  · rw [written_upstream_pipeline reads b hr, hq, List.take_zero]

/-- Witness of C4: the accepted bridge started with quota 0, first read of 5 bytes. -/
theorem quota_zero_forwards_nothing_witness :
    (start accepted_bridge 0 true).1.bytes_left_to_send_ = 0 ∧ 1 ≤ 5 ∧
    (handle_downstream_read (start accepted_bridge 0 true).1 false 5).2 =
      [Action.issue (Op.write_upstream [])] ∧
    handle_upstream_write (handle_downstream_read (start accepted_bridge 0 true).1 false 5).1
      false = close (start accepted_bridge 0 true).1 :=
  ⟨rfl, by decide,
    congrArg Prod.snd
      (quota_zero_forwards_nothing (start accepted_bridge 0 true).1 5 [block 5 7] rfl
        (by decide)).1,
    (quota_zero_forwards_nothing (start accepted_bridge 0 true).1 5 [block 5 7] rfl
      (by decide)).2.2.1⟩

/-- C5: on a successful upstream read of `n` bytes `handle_upstream_read` performs exactly
one action, a write to downstream of the first `n` bytes of `upstream_data_`, whatever the
counter is, and leaves the bridge as it was; a successful `handle_downstream_write`
performs exactly one action, the next upstream read; so for every sequence of successful
upstream reads the bytes handed to the downstream writes are the bytes read, in order, and
the counter is not touched. -/
theorem upstream_to_downstream_unlimited (b : bridge) (n : Nat) (reads : List (List Byte)) :
    handle_upstream_read b false n =
      (b, [Action.issue (Op.write_downstream (b.upstream_data_.take n))]) ∧
    handle_downstream_write b false = (b, [Action.issue Op.read_upstream]) ∧
    written_downstream (upstream_pipeline b reads).2 = reads.flatten ∧
    (upstream_pipeline b reads).1.bytes_left_to_send_ = b.bytes_left_to_send_ :=
  ⟨rfl, rfl, (written_downstream_pipeline reads b).1, (written_downstream_pipeline reads b).2⟩

/-- C6: `close` leaves both sockets closed and changes nothing else, closes the
downstream socket first and the upstream socket second, each only if it was open; a second
`close` performs no action and leaves the bridge unchanged; any positive number of
consecutive calls does in total what the first call does, so over any number of calls
each socket is closed at most once. -/
theorem close_idempotent (b : bridge) (k : Nat) :
    (close b).1 = { b with downstream_socket_ := false, upstream_socket_ := false } ∧
    (close b).2 =
      (if b.downstream_socket_ then [Action.close_downstream_socket] else []) ++
      (if b.upstream_socket_ then [Action.close_upstream_socket] else []) ∧
    close (close b).1 = ((close b).1, []) ∧
    close_times (k + 1) b = close b ∧
    (close_times k b).2.count Action.close_downstream_socket ≤ 1 ∧
    (close_times k b).2.count Action.close_upstream_socket ≤ 1 := by
  refine ⟨close_bridge b, close_actions b, close_close b, close_times_succ k b, ?_, ?_⟩
  · cases k with
    | zero => simp [close_times]
    | succ k =>
      rw [close_times_succ, close_actions]
      cases b.downstream_socket_ <;> cases b.upstream_socket_ <;> decide
  · cases k with
    | zero => simp [close_times]
    | succ k =>
      rw [close_times_succ, close_actions]
      cases b.downstream_socket_ <;> cases b.upstream_socket_ <;> decide

/-- C7: each of the five completion handlers, invoked with an error, is exactly `close`:
on return both sockets are closed, no operation has been started (no read, no write, no
byte handed to either socket), and `bytes_left_to_send_` is unchanged; a failed upstream
connect performs only the closes of the sockets that were open, downstream first. -/
theorem handlers_close_on_error (b : bridge) (n : Nat) :
    handle_upstream_connect b true = close b ∧
    handle_downstream_read b true n = close b ∧
    handle_upstream_write b true = close b ∧
    handle_upstream_read b true n = close b ∧
    handle_downstream_write b true = close b ∧
    (close b).1.downstream_socket_ = false ∧
    (close b).1.upstream_socket_ = false ∧
    (close b).1.bytes_left_to_send_ = b.bytes_left_to_send_ ∧
    issued_ops (close b).2 = [] ∧
    (∀ a ∈ (close b).2, a.is_read_or_write = false) ∧
    written_upstream (close b).2 = [] ∧
    written_downstream (close b).2 = [] ∧
    (handle_upstream_connect b true).2 =
      (if b.downstream_socket_ then [Action.close_downstream_socket] else []) ++
      (if b.upstream_socket_ then [Action.close_upstream_socket] else []) := by
  refine ⟨rfl, rfl, rfl, rfl, rfl, ?_, ?_, ?_, issued_ops_close b, close_no_read_write b,
    written_upstream_close b, written_downstream_close b, close_actions b⟩
  · rw [close_bridge]
  · rw [close_bridge]
  · rw [close_bridge]

/-- C8, as stated, fails: in the quota-100 bridge reached from `start` by a successful
connect, the upstream read completes with end of file and its handler closes both
sockets; the downstream read that was in flight then completes with 3 bytes and no error,
and `handle_downstream_read` starts a write (on the closed upstream socket).  So it is
not true that after a read handler ran with end of file no later handler starts a read
or a write. -/
theorem success_completion_after_eof_starts_a_write :
    Reachable (launch (start accepted_bridge 100 true)) connected_system ∧
    connected_system.pending[0]? = some Op.read_upstream ∧
    end_of_file.error = true ∧
    step connected_system 0 end_of_file = some after_upstream_eof ∧
    after_upstream_eof.b.downstream_socket_ = false ∧
    after_upstream_eof.b.upstream_socket_ = false ∧
    after_upstream_eof.pending[0]? = some Op.read_downstream ∧
    fired after_upstream_eof 0 three_bytes = [Action.issue (Op.write_upstream (block 3 9))] ∧
    (Action.issue (Op.write_upstream (block 3 9))).is_read_or_write = true ∧
    ¬ (∀ (s s1 s2 : System) (i j : Nat) (c c2 : Completion),
        Reachable (launch (start accepted_bridge 100 true)) s →
        (s.pending[i]? = some Op.read_downstream ∨ s.pending[i]? = some Op.read_upstream) →
        c.error = true → step s i c = some s1 → Reachable s1 s2 →
        ∀ a ∈ fired s2 j c2, a.is_read_or_write = false) := by
  have hreach : Reachable (launch (start accepted_bridge 100 true)) connected_system :=
    Reachable.next 0 connect_ok Reachable.init rfl
  have hfired : fired after_upstream_eof 0 three_bytes =
      [Action.issue (Op.write_upstream (block 3 9))] := by decide
  refine ⟨hreach, rfl, rfl, rfl, rfl, rfl, rfl, hfired, rfl, fun hall => ?_⟩
  have hbad := hall connected_system after_upstream_eof after_upstream_eof 0 0 end_of_file
    three_bytes hreach (Or.inr rfl) rfl rfl Reachable.init
    (Action.issue (Op.write_upstream (block 3 9)))
    (by rw [hfired]; exact List.mem_singleton.mpr rfl)
  exact Bool.noConfusion hbad

/-- C8, amended: in every state of the system, when a read handler is invoked with an
error (end of file included), it starts no read and no write and both sockets are closed
when it returns; both sockets stay closed in every state reached afterwards, and every
later handler invoked with an error (as the completion of an operation cancelled by the
close is) performs no action at all. -/
theorem eof_closes_both_and_later_errors_do_nothing (s s1 : System) (i : Nat)
    (c : Completion)
    (hop : s.pending[i]? = some Op.read_downstream ∨ s.pending[i]? = some Op.read_upstream)
    (he : c.error = true) (hstep : step s i c = some s1) :
    s1.b.downstream_socket_ = false ∧ s1.b.upstream_socket_ = false ∧
    (∀ a ∈ fired s i c, a.is_read_or_write = false) ∧
    ∀ s2 : System, Reachable s1 s2 →
      s2.b.downstream_socket_ = false ∧ s2.b.upstream_socket_ = false ∧
      ∀ (j : Nat) (c2 : Completion), c2.error = true → fired s2 j c2 = [] := by
  obtain ⟨op, hp, _, hf, rfl⟩ := step_inv s s1 i c hstep
  have hread : op = Op.read_downstream ∨ op = Op.read_upstream := by
    rw [hp] at hop
    simpa using hop
  obtain ⟨b2, e⟩ : ∃ b2 : bridge, run_handler s.b op c = close b2 := by
    rcases hread with rfl | rfl
    · exact ⟨{ s.b with downstream_data_ := read_into s.b.downstream_data_ c.data },
        by simp [run_handler, handle_downstream_read, he]⟩
    · exact ⟨{ s.b with upstream_data_ := read_into s.b.upstream_data_ c.data },
        by simp [run_handler, handle_upstream_read, he]⟩
  have hd : (run_handler s.b op c).1.downstream_socket_ = false := by rw [e, close_bridge]
  have hu : (run_handler s.b op c).1.upstream_socket_ = false := by rw [e, close_bridge]
  refine ⟨hd, hu, ?_, ?_⟩
  · rw [hf, e]
    exact close_no_read_write b2
  · intro s2 hr
    have hc := closed_reachable _ s2 hd hu hr
    exact ⟨hc.1, hc.2, fun j c2 h2 => fired_error_closed s2 j c2 h2 hc.1 hc.2⟩

/-- Witness of C8 amended: the upstream read of the connected quota-100 bridge completes
with end of file. -/
theorem eof_closes_both_and_later_errors_do_nothing_witness :
    (connected_system.pending[0]? = some Op.read_downstream ∨
      connected_system.pending[0]? = some Op.read_upstream) ∧
    end_of_file.error = true ∧
    step connected_system 0 end_of_file = some after_upstream_eof ∧
    after_upstream_eof.b.downstream_socket_ = false ∧
    after_upstream_eof.b.upstream_socket_ = false ∧
    (∀ a ∈ fired connected_system 0 end_of_file, a.is_read_or_write = false) ∧
    ∀ s2 : System, Reachable after_upstream_eof s2 →
      s2.b.downstream_socket_ = false ∧ s2.b.upstream_socket_ = false ∧
      ∀ (j : Nat) (c2 : Completion), c2.error = true → fired s2 j c2 = [] :=
  ⟨Or.inr rfl, rfl, rfl,
    eof_closes_both_and_later_errors_do_nothing connected_system after_upstream_eof 0
      end_of_file (Or.inr rfl) rfl rfl⟩

/-- C9: in every state reachable from a successful `handle_upstream_connect`, each
pipeline has at most one outstanding operation (so never two reads, never two writes,
never a read together with a write), hence no read into `downstream_data_` or
`upstream_data_` is outstanding while a write from that array is. -/
theorem one_outstanding_operation_per_pipeline (b : bridge) (s : System)
    (h : Reachable (launch (handle_upstream_connect b false)) s) :
    s.pending.countP Op.uses_downstream_data ≤ 1 ∧
    s.pending.countP Op.uses_upstream_data ≤ 1 ∧
    (∀ w : List Byte, Op.write_upstream w ∈ s.pending → Op.read_downstream ∉ s.pending) ∧
    (∀ w : List Byte, Op.write_downstream w ∈ s.pending →
      Op.read_upstream ∉ s.pending) := by
  have h0 : pipelines_sequential (launch (handle_upstream_connect b false)) := by
    simp [pipelines_sequential, launch, handle_upstream_connect, issued_ops,
      Op.uses_downstream_data, Op.uses_upstream_data, Op.is_connect]
  obtain ⟨h1, h2, _⟩ := pipelines_sequential_reachable _ s h0 h
  refine ⟨h1, h2, ?_, ?_⟩
  · intro w hw hr
    exact Op.noConfusion
      (eq_of_mem_countP_le_one Op.uses_downstream_data s.pending _ _ h1 hw hr rfl rfl)
  · intro w hw hr
    exact Op.noConfusion
      (eq_of_mem_countP_le_one Op.uses_upstream_data s.pending _ _ h2 hw hr rfl rfl)

/-- Witness of C9: the connected quota-100 bridge after its downstream read delivered
3 bytes; an upstream read and an upstream write are outstanding. -/
theorem one_outstanding_operation_per_pipeline_witness :
    Reachable (launch (handle_upstream_connect bridge_quota_100 false)) after_first_read ∧
    after_first_read.pending = [Op.read_upstream, Op.write_upstream (block 3 9)] ∧
    after_first_read.pending.countP Op.uses_downstream_data ≤ 1 ∧
    after_first_read.pending.countP Op.uses_upstream_data ≤ 1 ∧
    (∀ w : List Byte, Op.write_upstream w ∈ after_first_read.pending →
      Op.read_downstream ∉ after_first_read.pending) ∧
    (∀ w : List Byte, Op.write_downstream w ∈ after_first_read.pending →
      Op.read_upstream ∉ after_first_read.pending) :=
  ⟨Reachable.next 1 three_bytes Reachable.init rfl, by decide,
    one_outstanding_operation_per_pipeline bridge_quota_100 after_first_read
      (Reachable.next 1 three_bytes Reachable.init rfl)⟩

/-- C10: `start` sets `bytes_left_to_send_` to the quota; in every state reachable
afterwards the counter is at most the quota, no step raises it, a step changes it only
when it completes a downstream read without error, and `handle_upstream_connect`,
`handle_upstream_read`, `handle_downstream_write`, `handle_upstream_write`, a failed
`handle_downstream_read` and `close` leave it unchanged. -/
theorem counter_never_increases (b : bridge) (quota : Nat) (opened : Bool) (s : System)
    (hq : quota < size_t_range) (h : Reachable (launch (start b quota opened)) s) :
    (start b quota opened).1.bytes_left_to_send_ = quota ∧
    s.b.bytes_left_to_send_ ≤ quota ∧
    (∀ (i : Nat) (c : Completion) (s2 : System), step s i c = some s2 →
        s2.b.bytes_left_to_send_ ≤ s.b.bytes_left_to_send_ ∧
        (s2.b.bytes_left_to_send_ ≠ s.b.bytes_left_to_send_ →
          s.pending[i]? = some Op.read_downstream ∧ c.error = false)) ∧
    (∀ (x : bridge) (e : Bool) (n : Nat),
        (handle_upstream_connect x e).1.bytes_left_to_send_ = x.bytes_left_to_send_ ∧
        (handle_upstream_read x e n).1.bytes_left_to_send_ = x.bytes_left_to_send_ ∧
        (handle_downstream_write x e).1.bytes_left_to_send_ = x.bytes_left_to_send_ ∧
        (handle_upstream_write x e).1.bytes_left_to_send_ = x.bytes_left_to_send_ ∧
        (handle_downstream_read x true n).1.bytes_left_to_send_ = x.bytes_left_to_send_ ∧
        (close x).1.bytes_left_to_send_ = x.bytes_left_to_send_) := by
  have hle : s.b.bytes_left_to_send_ ≤ quota :=
    counter_reachable _ s quota hq (Nat.le_refl quota) h
  refine ⟨rfl, hle, ?_, handlers_keep_counter⟩
  intro i c s2 hstep
  obtain ⟨op, hp, _, _, rfl⟩ := step_inv s s2 i c hstep
  have hc := run_handler_counter s.b op c (by omega)
  refine ⟨hc.1, fun hne => ?_⟩
  obtain ⟨e1, e2⟩ := hc.2 hne
  exact ⟨by rw [hp, e1], e2⟩

/-- Witness of C10: the quota-100 bridge after connect and a downstream read of 3 bytes;
the counter went from 100 to 97. -/
theorem counter_never_increases_witness :
    (100 : Nat) < size_t_range ∧
    Reachable (launch (start accepted_bridge 100 true)) after_first_read ∧
    after_first_read.b.bytes_left_to_send_ = 97 ∧
    after_first_read.b.bytes_left_to_send_ ≤ 100 :=
  ⟨by decide,
    Reachable.next 1 three_bytes (Reachable.next 0 connect_ok Reachable.init rfl) rfl,
    rfl,
    (counter_never_increases accepted_bridge 100 true after_first_read (by decide)
      (Reachable.next 1 three_bytes (Reachable.next 0 connect_ok Reachable.init rfl) rfl)).2.1⟩

end tcp_proxy
